import Mathlib

set_option maxRecDepth 8000

/-!
Verification of the phrase-card backend (`src/app.py`).

The development shallowly embeds the two core routines of the program:

* `build_prompt` — the prompt builder (lines 130–171 of `app.py`), including the
  full per-phase configuration table `PHASE_CONFIG`;
* `extract_keywords_norm` — the response normalizer inlined in the
  `extract_keywords` handler (lines 209–247 of `app.py`): fenced-block unwrap,
  `json.loads`, structured card extraction, and the line-heuristic fallback.

Python strings are modelled as Lean `String`/`List Char`; Python's `str.strip`,
`str.splitlines`, `str.lstrip(set)`, `str.split(sep, 1)`, `str.rsplit(sep, 1)`
are modelled character-for-character.  `json.loads` is modelled by a fuel-based
recursive-descent parser over the JSON fragment with integer numerals (the
program's claims never involve float literals); Python exceptions that can
escape the normalizer (`IndexError` from the fence split, `AttributeError` from
calling `.strip()` on a non-string) are modelled with `Except PyErr`.
-/

/-- Characters treated as whitespace by Python's `str.strip()`. -/
def pyWs (c : Char) : Bool :=
  c == ' ' || c == '\t' || c == '\n' || c == '\r' || c == '\x0b' || c == '\x0c' ||
  c == '\x1c' || c == '\x1d' || c == '\x1e' || c == '\x1f' || c == '\u0085' ||
  c == '\u00a0' || c == '\u1680' || c == '\u2000' || c == '\u2001' || c == '\u2002' ||
  c == '\u2003' || c == '\u2004' || c == '\u2005' || c == '\u2006' || c == '\u2007' ||
  c == '\u2008' || c == '\u2009' || c == '\u200a' || c == '\u2028' || c == '\u2029' ||
  c == '\u202f' || c == '\u205f' || c == '\u3000'

/-- Python `str.strip()` on a character list: drop whitespace on both ends. -/
def stripChars (l : List Char) : List Char :=
  ((l.dropWhile pyWs).reverse.dropWhile pyWs).reverse

/-- Python `str.strip()`. -/
def pyStrip (s : String) : String := String.mk (stripChars s.data)

/-- Line-boundary characters of Python's `str.splitlines()`. -/
def lineBreakChar (c : Char) : Bool :=
  c == '\n' || c == '\r' || c == '\x0b' || c == '\x0c' || c == '\x1c' ||
  c == '\x1d' || c == '\x1e' || c == '\u0085' || c == '\u2028' || c == '\u2029'

/-- Worker for `pySplitlines`; `acc` holds the current line reversed. -/
def pySplitlinesAux : List Char → List Char → List (List Char)
  | [], acc => if acc.isEmpty then [] else [acc.reverse]
  | '\r' :: '\n' :: rest, acc => acc.reverse :: pySplitlinesAux rest []
  | c :: rest, acc =>
    if lineBreakChar c then acc.reverse :: pySplitlinesAux rest []
    else pySplitlinesAux rest (c :: acc)

/-- Python `str.splitlines()`. -/
def pySplitlines (l : List Char) : List (List Char) := pySplitlinesAux l []

/-- Test for `text.startswith("\x60\x60\x60")` (three backticks). -/
def startsWithFence : List Char → Bool
  | c1 :: c2 :: c3 :: _ => c1 == '\x60' && c2 == '\x60' && c3 == '\x60'
  | _ => false

/-- Python `text.split("\n", 1)[1]`: the text after the first newline, if any. -/
def splitOnceNL : List Char → Option (List Char)
  | [] => none
  | c :: rest => if c = '\n' then some rest else splitOnceNL rest

/-- The text before the last occurrence of three backticks, if one occurs;
models the kept part of Python `text.rsplit("\x60\x60\x60", 1)[0]`. -/
def beforeLastFence : List Char → Option (List Char)
  | [] => none
  | c :: rest =>
    match beforeLastFence rest with
    | some pre => some (c :: pre)
    | none => if startsWithFence (c :: rest) then some [] else none

/-- Whether three consecutive backticks occur anywhere in the list. -/
def hasFence : List Char → Bool
  | [] => false
  | c :: rest => startsWithFence (c :: rest) || hasFence rest

/-- Python exceptions that can escape the normalizer. -/
inductive PyErr where
  | indexError
  | attributeError
deriving DecidableEq

/-- A phrase card: the `keyword`/`quote` record built by the normalizer. -/
structure Card where
  keyword : String
  quote : String
deriving DecidableEq

/-- JSON values as produced by `json.loads` (integer numerals only). -/
inductive Json where
  | null
  | bool (b : Bool)
  | num (n : Int)
  | str (s : String)
  | arr (items : List Json)
  | obj (fields : List (String × Json))

/-- Whitespace skipped between JSON tokens by `json.loads`. -/
def jsonWs (c : Char) : Bool := c == ' ' || c == '\t' || c == '\n' || c == '\r'

/-- Insert a key/value pair as a Python dict insertion does: replace in place
when the key is already present, otherwise append. -/
def insertField : List (String × Json) → String → Json → List (String × Json)
  | [], k, v => [(k, v)]
  | (k1, v1) :: rest, k, v =>
    if k1 = k then (k, v) :: rest else (k1, v1) :: insertField rest k v

mutual

/-- Parse a JSON string body (the opening quote already consumed), handling
the standard escape sequences; `acc` holds parsed characters reversed. -/
def parseStrAux : List Char → List Char → Option (String × List Char)
  | [], _ => none
  | c :: rest, acc =>
    if c = '"' then some (String.mk acc.reverse, rest)
    else if c = '\\' then parseStrEsc rest acc
    else parseStrAux rest (c :: acc)

/-- Handle the character following a backslash inside a JSON string body. -/
def parseStrEsc : List Char → List Char → Option (String × List Char)
  | [], _ => none
  | e :: rest2, acc =>
    if e = '"' then parseStrAux rest2 ('"' :: acc)
    else if e = '\\' then parseStrAux rest2 ('\\' :: acc)
    else if e = '/' then parseStrAux rest2 ('/' :: acc)
    else if e = 'b' then parseStrAux rest2 ('\x08' :: acc)
    else if e = 'f' then parseStrAux rest2 ('\x0c' :: acc)
    else if e = 'n' then parseStrAux rest2 ('\n' :: acc)
    else if e = 'r' then parseStrAux rest2 ('\r' :: acc)
    else if e = 't' then parseStrAux rest2 ('\t' :: acc)
    else none

end

/-- Consume a run of decimal digits, accumulating their value. -/
def digitsLoop : Nat → List Char → Nat × List Char
  | acc, c :: rest =>
    if c.isDigit then digitsLoop (acc * 10 + (c.toNat - 48)) rest else (acc, c :: rest)
  | acc, [] => (acc, [])

/-- Parse an unsigned JSON integer numeral (no leading zeros except "0"). -/
def parseNatTok : List Char → Option (Nat × List Char)
  | c :: rest =>
    if c = '0' then some (0, rest)
    else if c.isDigit then some (digitsLoop (c.toNat - 48) rest)
    else none
  | [] => none

/-- Parse an optionally signed JSON integer numeral. -/
def parseNumTok (l : List Char) : Option (Int × List Char) :=
  match l with
  | '-' :: rest => (parseNatTok rest).map (fun p => (-(p.1 : Int), p.2))
  | _ => (parseNatTok l).map (fun p => ((p.1 : Int), p.2))

/-- Parser mode: a JSON value, an object body, the members of an object,
an array body, or the elements of an array. -/
inductive PMode where
  | value
  | objBody
  | members (acc : List (String × Json))
  | arrBody
  | elems (acc : List Json)

/-- Fuel-based recursive-descent parser for the JSON fragment accepted by
`json.loads` (with integer numerals); returns the value and the unconsumed
suffix. -/
def parseF : Nat → PMode → List Char → Option (Json × List Char)
  | 0, _, _ => none
  | f + 1, .value, l =>
    match l.dropWhile jsonWs with
    | [] => none
    | c :: rest =>
      if c = '"' then
        match parseStrAux rest [] with
        | some (s, r) => some (.str s, r)
        | none => none
      else if c = '\x7b' then parseF f .objBody rest
      else if c = '[' then parseF f .arrBody rest
      else if c = 'n' then
        match rest with
        | 'u' :: 'l' :: 'l' :: r => some (.null, r)
        | _ => none
      else if c = 't' then
        match rest with
        | 'r' :: 'u' :: 'e' :: r => some (.bool true, r)
        | _ => none
      else if c = 'f' then
        match rest with
        | 'a' :: 'l' :: 's' :: 'e' :: r => some (.bool false, r)
        | _ => none
      else if c = '-' || c.isDigit then
        match parseNumTok (c :: rest) with
        | some (n, r) => some (.num n, r)
        | none => none
      else none
  | f + 1, .objBody, l =>
    match l.dropWhile jsonWs with
    | '\x7d' :: r => some (.obj [], r)
    | _ => parseF f (.members []) l
  | f + 1, .members acc, l =>
    match l.dropWhile jsonWs with
    | '"' :: r =>
      match parseStrAux r [] with
      | some (key, r1) =>
        match r1.dropWhile jsonWs with
        | ':' :: r2 =>
          match parseF f .value r2 with
          | some (v, r3) =>
            match r3.dropWhile jsonWs with
            | ',' :: r4 => parseF f (.members (insertField acc key v)) r4
            | '\x7d' :: r4 => some (.obj (insertField acc key v), r4)
            | _ => none
          | none => none
        | _ => none
      | none => none
    | _ => none
  | f + 1, .arrBody, l =>
    match l.dropWhile jsonWs with
    | ']' :: r => some (.arr [], r)
    | _ => parseF f (.elems []) l
  | f + 1, .elems acc, l =>
    match parseF f .value l with
    | some (v, r) =>
      match r.dropWhile jsonWs with
      | ',' :: r2 => parseF f (.elems (v :: acc)) r2
      | ']' :: r2 => some (.arr (v :: acc).reverse, r2)
      | _ => none
    | none => none

/-- Model of Python `json.loads`: parse one value, allow trailing whitespace,
reject anything else left over; `none` models `json.JSONDecodeError`. -/
def json_loads (s : String) : Option Json :=
  match parseF (4 * s.data.length + 16) .value s.data with
  | some (v, rest) => if (rest.dropWhile jsonWs).isEmpty then some v else none
  | none => none

/-- Hexadecimal digit character for values 0–15. -/
def hexDigitChar (n : Nat) : Char :=
  if n < 10 then Char.ofNat (48 + n) else Char.ofNat (87 + n)

/-- Escaping of one character inside Python's `repr` of a string, for quote
character `q`. -/
def pyReprChar (q : Char) (c : Char) : List Char :=
  if c = '\\' then ['\\', '\\']
  else if c = q then ['\\', q]
  else if c = '\n' then ['\\', 'n']
  else if c = '\r' then ['\\', 'r']
  else if c = '\t' then ['\\', 't']
  else if c.toNat < 32 || c.toNat = 127 then
    ['\\', 'x', hexDigitChar (c.toNat / 16), hexDigitChar (c.toNat % 16)]
  else [c]

/-- Worker for `pyReprStr`. -/
def pyReprStrAux (q : Char) : List Char → List Char
  | [] => []
  | c :: rest => pyReprChar q c ++ pyReprStrAux q rest

/-- Python `repr` of a string: single quotes unless the string contains a
single quote and no double quote. -/
def pyReprStr (s : String) : String :=
  let q : Char := if s.data.contains '\x27' && !(s.data.contains '"') then '"' else '\x27'
  String.mk (q :: pyReprStrAux q s.data ++ [q])

mutual

/-- Python `repr` of a JSON value. -/
def pyRepr : Json → String
  | .null => "None"
  | .bool true => "True"
  | .bool false => "False"
  | .num n => toString n
  | .str s => pyReprStr s
  | .arr items => "[" ++ String.intercalate ", " (pyReprL items) ++ "]"
  | .obj fields => "\x7b" ++ String.intercalate ", " (pyReprF fields) ++ "\x7d"

/-- Python `repr` of each element of a JSON list. -/
def pyReprL : List Json → List String
  | [] => []
  | j :: js => pyRepr j :: pyReprL js

/-- Python `repr` of each `key: value` member of a JSON object. -/
def pyReprF : List (String × Json) → List String
  | [] => []
  | (k, v) :: fs => (pyReprStr k ++ ": " ++ pyRepr v) :: pyReprF fs

end

/-- Python `str` of a JSON value: a string is returned as itself, anything
else as its `repr`. -/
def pyStr : Json → String
  | .str s => s
  | v => pyRepr v

/-- Model of `item.get(key, "").strip()`: missing fields default to the empty
string; calling `.strip()` on a non-string raises `AttributeError`. -/
def stripField (fields : List (String × Json)) (key : String) : Except PyErr String :=
  match fields.lookup key with
  | none => .ok ""
  | some (.str s) => .ok (pyStrip s)
  | some _ => .error .attributeError

/-- Processing of one element of a parsed JSON list (lines 221–228 of
`app.py`): an object yields a card when its trimmed keyword is non-empty, a
bare string always yields a card, anything else yields nothing. -/
def cardOfItem : Json → Except PyErr (Option Card)
  | .obj fields =>
    match stripField fields "keyword" with
    | .error e => .error e
    | .ok kw =>
      match stripField fields "quote" with
      | .error e => .error e
      | .ok qt => .ok (if kw = "" then none else some ⟨kw, qt⟩)
  | .str s => .ok (some ⟨pyStrip s, ""⟩)
  | _ => .ok none

/-- The loop over the elements of a parsed JSON list. -/
def cardsOfList : List Json → Except PyErr (List Card)
  | [] => .ok []
  | j :: js =>
    match cardOfItem j with
    | .error e => .error e
    | .ok co =>
      match cardsOfList js with
      | .error e => .error e
      | .ok rest => .ok (match co with | some c => c :: rest | none => rest)

/-- The structured path on a successfully parsed JSON value (lines 220–236 of
`app.py`): lists are processed element-wise, any other value is wrapped into a
single card via `str(parsed).strip()`. -/
def structuredOfJson : Json → Except PyErr (List Card)
  | .arr items => cardsOfList items
  | v => .ok [⟨pyStrip (pyStr v), ""⟩]

/-- Leading bullet/list marker characters stripped by
`line.lstrip("・-*")`. -/
def bulletChar (c : Char) : Bool := c == '・' || c == '-' || c == '*'

/-- Python `line.split(".", 1)[1]`: the text after the first period. -/
def afterFirstDot : List Char → List Char
  | [] => []
  | c :: rest => if c = '.' then rest else afterFirstDot rest

/-- Processing of one line in the fallback tier (lines 239–247 of `app.py`). -/
def processLine (line : List Char) : Option Card :=
  let l1 := stripChars line
  if l1.isEmpty then none
  else
    let l2 := stripChars (l1.dropWhile bulletChar)
    let l3 := if (l2.take 3).contains '.' then stripChars (afterFirstDot l2) else l2
    if l3.isEmpty then none else some ⟨String.mk l3, ""⟩

/-- The whole fallback tier: split the raw text into lines and process each. -/
def fallbackLines (raw : String) : List Card :=
  (pySplitlines raw.data).filterMap processLine

/-- The fenced-block unwrap step (lines 213–217 of `app.py`): when the trimmed
text starts with three backticks, drop the text up to and including the first
newline (raising `IndexError` when there is none), then drop everything from
the last three-backtick occurrence of the remainder onward (keeping the
remainder whole when there is none). -/
def unwrapFence (text : List Char) : Except PyErr (List Char) :=
  if startsWithFence text then
    match splitOnceNL text with
    | none => .error .indexError
    | some rest => .ok ((beforeLastFence rest).getD rest)
  else .ok text

/-- The response normalizer (lines 209–247 of `app.py`): trim, unwrap a fenced
block, try `json.loads` and the structured path, and on a JSON parse error
fall back to line-heuristic extraction over the raw original text. -/
def extract_keywords_norm (raw : String) : Except PyErr (List Card) :=
  match unwrapFence (stripChars raw.data) with
  | .error e => .error e
  | .ok text =>
    match json_loads (String.mk text) with
    | some parsed => structuredOfJson parsed
    | none => .ok (fallbackLines raw)

/-- Per-phase prompt configuration (`PHASE_CONFIG` values in `app.py`). -/
structure PhaseCfg where
  label : String
  card_type : String
  count_min : Nat
  count_max : Nat
  examples : List String
  aim : String

/-- The `"saguru"` entry of `PHASE_CONFIG`. -/
def saguru_cfg : PhaseCfg :=
  { label := "①さぐる：現状をさぐる"
    card_type := "事実・観察・感情の「今こうなっている」カード"
    count_min := 6
    count_max := 10
    examples :=
      [ "毎日カバンが重くて、肩が痛くなることが多い。"
      , "授業で使わなかった教科書を、念のため持ってきている。"
      , "教室が暑すぎたり寒すぎたりして集中しにくい。" ]
    aim := "観察欄・困りごと欄を補完する材料として、状況カードを多めに出す。評価や解決策は抑えめにし、事実と感じたことを見える化する。" }

/-- The `"kizuku"` entry of `PHASE_CONFIG`. -/
def kizuku_cfg : PhaseCfg :=
  { label := "②きづく：本当の問題に気づく"
    card_type := "解決したい『問題の核心』や『問い』を表すカード"
    count_min := 3
    count_max := 5
    examples :=
      [ "荷物が重くなる理由をきちんと整理できていないことが問題だ。"
      , "生徒が本当に必要な持ち物を自分で判断できていない。" ]
    aim := "さぐるフェーズのカードを踏まえて、AIが問題候補をまとめ直す。生徒は『一番気になる問題』を選んでシートに一文で書く。カードは問いの文にして、次のひらめく・つくるの起点にする。" }

/-- The `"hirameku"` entry of `PHASE_CONFIG`. -/
def hirameku_cfg : PhaseCfg :=
  { label := "③ひらめく：解決アイデアをひらめく"
    card_type := "解決アイデアや『こんな工夫をしてみたい』カード"
    count_min := 8
    count_max := 12
    examples :=
      [ "曜日ごとに持ち物チェックリストをつくる。"
      , "ロッカーに置いておける教科書を学年で決める。"
      , "カバンの重さを1週間計測して、結果をポスターにまとめる。" ]
    aim := "アイデア出し欄を広げる役割。似ていても視点が違えば残す。評価はまだせず、生徒が『面白い・実現しやすい』観点で選べるようにする。" }

/-- The `"tsukuru"` entry of `PHASE_CONFIG`. -/
def tsukuru_cfg : PhaseCfg :=
  { label := "④つくる：ペーパープロトタイプにまとめる"
    card_type := "実際に形にするアイデアの要約カード＋具体化カード"
    count_min := 3
    count_max := 7
    examples :=
      [ "休み時間に自分の空間を作れる『安眠ムードBOX』をつくる。"
      , "机の上に置ける大きさにする。"
      , "箱の中は暗くして、音もできるだけ遮る。"
      , "軽くて持ち運びしやすい素材にする。" ]
    aim := "ワークシートの『見た目／大きさ／機能／特徴』と対応させる。AIは要約と具体化の候補を出し、生徒はそれをヒントに自分の言葉と絵で書く。" }

/-- The `"tamesu"` entry of `PHASE_CONFIG`. -/
def tamesu_cfg : PhaseCfg :=
  { label := "⑤ためす：ユーザーテストとフィードバック"
    card_type := "良かったところ／もっと良くできそうなところ／次に取り組むこと"
    count_min := 4
    count_max := 6
    examples :=
      [ "手軽に自分の空間ができるのが良さそうと言われた。"
      , "BOXが大きくて置き場所に困るので、畳めるようにした方が良いと言われた。"
      , "板を小さくして折り畳みしやすい形を考える。" ]
    aim := "フィードバックシートの3欄（良かった・もっと・次）を埋める材料。次のサイクルのさぐる・きづくに引き継ぐ学びのエッセンスとして少数精鋭にする。" }

/-- The per-phase configuration table `PHASE_CONFIG` of `app.py`. -/
def PHASE_CONFIG : List (String × PhaseCfg) :=
  [ ("saguru", saguru_cfg)
  , ("kizuku", kizuku_cfg)
  , ("hirameku", hirameku_cfg)
  , ("tsukuru", tsukuru_cfg)
  , ("tamesu", tamesu_cfg) ]

/-- The prompt builder `build_prompt` of `app.py` (lines 130–171): look up the
phase (falling back to `saguru`), and render the fixed Japanese template. -/
def build_prompt (memo : String) (phase : String) : String :=
  let cfg := (PHASE_CONFIG.lookup phase).getD saguru_cfg
  let examples_text := String.join (cfg.examples.map (fun ex => "・" ++ ex ++ "\n"))
  "あなたは日本の中高生の話し合いを支援するファシリテーターです。\n" ++
  "今はデザイン思考のフェーズ「" ++ cfg.label ++ "」にいます。\n\n" ++
  "生徒たちの話し合いメモ（文字起こしを含む）から、このフェーズにふさわしい内容のフレーズカードを " ++
  toString cfg.count_min ++ "〜" ++ toString cfg.count_max ++
  " 個、日本語で生成してください。\n" ++
  "今回ほしいカードの種類：" ++ cfg.card_type ++ "\n\n" ++
  "ねらい：" ++ cfg.aim ++ "\n\n" ++
  "【出力フォーマット】\n" ++
  "- 必ず JSON 配列だけを出力する。\n" ++
  "- 各要素は \x7b\"keyword\": \"短いキーワード\", \"quote\": \"元の発話の一部\"\x7d の形にする。\n" ++
  "- keyword は 20文字前後の短い常体の文（〜する、〜になる など）。\n" ++
  "- quote は元の発話から15〜25文字程度をそのまま抜粋する。見つからなければ空文字にする。\n" ++
  "- 丁寧語（〜です、〜ます）は使わず、子どもが自分のノートに書きそうな表現にする。\n" ++
  "- 同じ意味の内容は1つにまとめる。\n" ++
  "- JSON 以外の説明文やコメントは一切出力しない。\n\n" ++
  "【カードのイメージ例】\n" ++
  examples_text ++ "\n" ++
  "【元のメモ】\n" ++
  memo ++ "\n"

/-- JSON escaping used by the card serializer (quote, backslash and the
control characters `\n`, `\r`, `\t` are escaped; other characters kept). -/
def escChar (c : Char) : List Char :=
  if c = '"' then ['\\', '"']
  else if c = '\\' then ['\\', '\\']
  else if c = '\n' then ['\\', 'n']
  else if c = '\r' then ['\\', 'r']
  else if c = '\t' then ['\\', 't']
  else [c]

/-- JSON escaping of a character list. -/
def escList : List Char → List Char
  | [] => []
  | c :: cs => escChar c ++ escList cs

/-- A JSON string literal for `s`, as a character list. -/
def qstrChars (s : String) : List Char := '"' :: escList s.data ++ ['"']

/-- One card serialized as a compact JSON object, as a character list
(models `json.dumps` of the card dict with compact separators). -/
def cardChars (c : Card) : List Char :=
  '\x7b' :: qstrChars "keyword" ++ ':' :: qstrChars c.keyword ++
  ',' :: qstrChars "quote" ++ ':' :: qstrChars c.quote ++ ['\x7d']

/-- The comma-prefixed serializations of the cards after the first. -/
def elemsTail : List Card → List Char
  | [] => []
  | c :: cs => ',' :: cardChars c ++ elemsTail cs

/-- The serializations of all cards, comma-separated. -/
def elemsChars : List Card → List Char
  | [] => []
  | c :: cs => cardChars c ++ elemsTail cs

/-- A card list serialized as a compact JSON array (models `json.dumps` of
the normalizer's output list). -/
def serializeCards (cards : List Card) : String :=
  String.mk ('[' :: elemsChars cards ++ [']'])

/-- The JSON value corresponding to one serialized card. -/
def cardJson (c : Card) : Json :=
  .obj [("keyword", .str c.keyword), ("quote", .str c.quote)]

/-! Helper lemmas shared by several claim theorems. -/

/-- A nonempty character list makes a nonempty string. -/
theorem string_mk_ne_empty {l : List Char} (h : l ≠ []) : String.mk l ≠ "" := by
  intro he
  exact h (congrArg String.data he)

/-- Unfolding of the normalizer when the fence unwrap succeeds and the JSON
parse fails. -/
theorem extract_eq_fallback {raw : String} {t : List Char}
    (hu : unwrapFence (stripChars raw.data) = .ok t)
    (hp : json_loads (String.mk t) = none) :
    extract_keywords_norm raw = .ok (fallbackLines raw) := by
  simp only [extract_keywords_norm, hu, hp]

/-- Unfolding of the normalizer when the fence unwrap succeeds and the JSON
parse succeeds. -/
theorem extract_eq_structured {raw : String} {t : List Char} {v : Json}
    (hu : unwrapFence (stripChars raw.data) = .ok t)
    (hp : json_loads (String.mk t) = some v) :
    extract_keywords_norm raw = structuredOfJson v := by
  simp only [extract_keywords_norm, hu, hp]

/-!  ## Claims -/

/-- C1: the claim that the normalizer never raises for any input string is
wrong on the code: on the input consisting of a fence opener with no newline,
`text.split("\n", 1)[1]` raises `IndexError`, which the handler's
`except json.JSONDecodeError` does not catch, so the request fails instead of
producing a card list.  The same `except` clause also misses the
`AttributeError` raised by `.strip()` on non-string `keyword`/`quote` values. -/
theorem c1_fence_opener_raises :
    extract_keywords_norm "```" = .error .indexError := by rfl

/-- C2 counterexample: the bare-string element path emits a card whose keyword
is the trimmed string without checking non-emptiness, so a whitespace-only
bare-string element produces a card with an empty keyword. -/
theorem c2_counterexample :
    extract_keywords_norm "[\" \"]" = .ok [⟨"", ""⟩] := by rfl

/-- C2 (amended): every card produced by the object-element path or by the
line-heuristic fallback has a non-empty keyword, but the bare-string element
path and the single-value defensive wrap emit the trimmed text as keyword even
when it is empty. -/
theorem c2_amended :
    (∀ fields c, cardOfItem (.obj fields) = .ok (some c) → c.keyword ≠ "") ∧
    (∀ raw c, c ∈ fallbackLines raw → c.keyword ≠ "") ∧
    (∀ s, cardOfItem (.str s) = .ok (some ⟨pyStrip s, ""⟩)) ∧
    (∀ v, (∀ items, v ≠ .arr items) → structuredOfJson v = .ok [⟨pyStrip (pyStr v), ""⟩]) := by
  refine ⟨?_, ?_, ?_, ?_⟩
  · intro fields c h
    simp only [cardOfItem] at h
    cases hk : stripField fields "keyword" with
    | error e => rw [hk] at h; exact Except.noConfusion h
    | ok kw =>
      rw [hk] at h
      cases hq : stripField fields "quote" with
      | error e => rw [hq] at h; exact Except.noConfusion h
      | ok qt =>
        rw [hq] at h
        by_cases hkw : kw = ""
        · simp [hkw] at h
        · simp only [hkw, if_false, Except.ok.injEq, Option.some.injEq] at h
          rw [← h]
          exact hkw
  · intro raw c hc
    obtain ⟨line, _, hpl⟩ := List.mem_filterMap.mp hc
    simp only [processLine] at hpl
    split at hpl
    · exact Option.noConfusion hpl
    · split at hpl <;> split at hpl <;>
        first
          | exact Option.noConfusion hpl
          | (rename_i hne
             injection hpl with h2
             rw [← h2]
             exact string_mk_ne_empty (by simpa using hne))
  · intro s; rfl
  · intro v hv
    cases v with
    | arr items => exact absurd rfl (hv items)
    | _ => rfl

/-- C2 amended witness: the object-element conjunct applied at a concrete
object with a present keyword field. -/
theorem c2_amended_witness : (Card.mk "abc" "").keyword ≠ "" :=
  c2_amended.1 [("keyword", Json.str "abc")] ⟨"abc", ""⟩ (by rfl)

/-- C3 counterexample: on this input the JSON parse succeeds (the list holds
an object whose keyword field is a number), yet no structured result is
returned: the normalizer raises `AttributeError` instead of returning the
structured card list. -/
theorem c3_counterexample :
    json_loads "[\x7b\"keyword\": 2\x7d]" =
      some (.arr [.obj [("keyword", .num 2)]]) ∧
    extract_keywords_norm "[\x7b\"keyword\": 2\x7d]" = .error .attributeError :=
  ⟨rfl, rfl⟩

/-- C3 (amended): the structured JSON parse is attempted first, and as long as
the unwrap step does not raise, the fallback tier runs exactly when the parse
fails; when the parse succeeds the normalizer's outcome is that of the
structured path (which is returned whenever its element processing does not
itself raise, even when it yields zero cards). -/
theorem c3_amended (raw : String) (t : List Char)
    (hu : unwrapFence (stripChars raw.data) = .ok t) :
    (json_loads (String.mk t) = none →
      extract_keywords_norm raw = .ok (fallbackLines raw)) ∧
    (∀ v, json_loads (String.mk t) = some v →
      extract_keywords_norm raw = structuredOfJson v) := by
  constructor
  · intro hp; exact extract_eq_fallback hu hp
  · intro v hp; exact extract_eq_structured hu hp

/-- C3 amended witness: both branches applied at concrete inputs — a non-JSON
input resolving to the fallback tier, and an empty JSON array resolving to the
(empty) structured result. -/
theorem c3_amended_witness :
    extract_keywords_norm "not json" = .ok (fallbackLines "not json") ∧
    extract_keywords_norm "[]" = structuredOfJson (.arr []) := by
  constructor
  · exact (c3_amended "not json" "not json".data (by rfl)).1 (by rfl)
  · exact (c3_amended "[]" "[]".data (by rfl)).2 (.arr []) (by rfl)

/-- C5: when the unwrap step succeeds and the JSON parse fails, the normalizer
returns the cards obtained from the raw original text (not the unwrapped one)
by splitting it into lines and, per line: trimming, skipping blanks, stripping
leading bullet markers with surrounding whitespace, dropping through the first
period when one occurs in the first three characters, trimming again, and
keeping the remainder (as keyword, with empty quote) when non-empty. -/
theorem c5_fallback_lines (raw : String) (t : List Char)
    (hu : unwrapFence (stripChars raw.data) = .ok t)
    (hp : json_loads (String.mk t) = none) :
    extract_keywords_norm raw =
      .ok ((pySplitlines raw.data).filterMap (fun line =>
        let l1 := stripChars line
        if l1.isEmpty then none
        else
          let l2 := stripChars (l1.dropWhile bulletChar)
          let l3 := if (l2.take 3).contains '.' then stripChars (afterFirstDot l2) else l2
          if l3.isEmpty then none else some ⟨String.mk l3, ""⟩)) := by
  rw [extract_eq_fallback hu hp]
  rfl

/-- C5 witness: the fallback tier applied to two bulleted Japanese lines. -/
theorem c5_witness :
    extract_keywords_norm "・食べ物がない\n・時間が足りない" =
      .ok [⟨"食べ物がない", ""⟩, ⟨"時間が足りない", ""⟩] := by
  rw [c5_fallback_lines "・食べ物がない\n・時間が足りない"
        "・食べ物がない\n・時間が足りない".data (by rfl) (by rfl)]
  rfl

/-- C6: for an object element, `keyword` and `quote` are read with missing
fields defaulting to the empty string, both are trimmed, and a card carrying
exactly the trimmed values is emitted when and only when the trimmed keyword
is non-empty; in particular the two concrete examples of the claim. -/
theorem c6_object_elements :
    (∀ (fields : List (String × Json)) (ko qo : Option String),
        fields.lookup "keyword" = ko.map Json.str →
        fields.lookup "quote" = qo.map Json.str →
        cardOfItem (.obj fields) =
          .ok (if pyStrip (ko.getD "") = "" then none
               else some ⟨pyStrip (ko.getD ""), pyStrip (qo.getD "")⟩)) ∧
    extract_keywords_norm "[\x7b\"keyword\":\"  a  \",\"quote\":\"\"\x7d]" = .ok [⟨"a", ""⟩] ∧
    extract_keywords_norm "[\x7b\"quote\":\"b\"\x7d]" = .ok [] := by
  refine ⟨?_, by rfl, by rfl⟩
  intro fields ko qo hk hq
  cases ko <;> cases qo <;>
    simp only [Option.map] at hk hq <;>
    simp only [cardOfItem, stripField, hk, hq] <;>
    rfl

/-- C6 witness: the universally quantified conjunct applied to a concrete
object whose keyword needs trimming and whose quote field is absent. -/
theorem c6_witness :
    cardOfItem (.obj [("keyword", Json.str "  a  ")]) = .ok (some ⟨"a", ""⟩) := by
  rw [c6_object_elements.1 [("keyword", Json.str "  a  ")] (some "  a  ") none
        (by rfl) (by rfl)]
  rfl

/-- C7: when the parsed JSON value is not a list, the normalizer emits exactly
one card whose keyword is the trimmed Python string representation of that
value and whose quote is empty. -/
theorem c7_single_value_wrap (raw : String) (t : List Char) (v : Json)
    (hu : unwrapFence (stripChars raw.data) = .ok t)
    (hp : json_loads (String.mk t) = some v)
    (hv : ∀ items, v ≠ .arr items) :
    extract_keywords_norm raw = .ok [⟨pyStrip (pyStr v), ""⟩] := by
  rw [extract_eq_structured hu hp]
  cases v with
  | arr items => exact absurd rfl (hv items)
  | _ => rfl

/-- C7 witness: a single JSON object (not an array) is wrapped into one card
holding the trimmed string representation of the parsed dict. -/
theorem c7_witness :
    extract_keywords_norm "\x7b\"keyword\":\"solo\"\x7d" =
      .ok [⟨pyStrip (pyStr (Json.obj [("keyword", Json.str "solo")])), ""⟩] :=
  c7_single_value_wrap "\x7b\"keyword\":\"solo\"\x7d"
    "\x7b\"keyword\":\"solo\"\x7d".data
    (Json.obj [("keyword", Json.str "solo")])
    (by rfl) (by rfl) (fun items h => Json.noConfusion h)

/-- C8: `build_prompt` is total, and for any phase string other than the five
known identifiers it produces output identical to the `saguru` phase. -/
theorem c8_unknown_phase (memo phase : String)
    (h : phase ∉ ["saguru", "kizuku", "hirameku", "tsukuru", "tamesu"]) :
    build_prompt memo phase = build_prompt memo "saguru" := by
  simp only [List.mem_cons, List.not_mem_nil, or_false, not_or] at h
  obtain ⟨h1, h2, h3, h4, h5⟩ := h
  have b1 : (phase == "saguru") = false := beq_eq_false_iff_ne.mpr h1
  have b2 : (phase == "kizuku") = false := beq_eq_false_iff_ne.mpr h2
  have b3 : (phase == "hirameku") = false := beq_eq_false_iff_ne.mpr h3
  have b4 : (phase == "tsukuru") = false := beq_eq_false_iff_ne.mpr h4
  have b5 : (phase == "tamesu") = false := beq_eq_false_iff_ne.mpr h5
  have hl : List.lookup phase PHASE_CONFIG = none := by
    simp [PHASE_CONFIG, List.lookup, b1, b2, b3, b4, b5]
  simp only [build_prompt, hl]
  rfl

/-- C8 witness: a concrete unrecognized phase identifier. -/
theorem c8_witness : build_prompt "memo" "zzz" = build_prompt "memo" "saguru" :=
  c8_unknown_phase "memo" "zzz" (by decide)

/-- Whether a field value, when present under `key`, is a JSON string (so that
Python's `.strip()` on it cannot raise). -/
def strOrMissing (fields : List (String × Json)) (key : String) : Bool :=
  match fields.lookup key with
  | none => true
  | some (.str _) => true
  | some _ => false

/-- Whether one list element can be processed without raising: objects need
string-or-missing `keyword`/`quote` fields, everything else is safe. -/
def okItem : Json → Bool
  | .obj fields => strOrMissing fields "keyword" && strOrMissing fields "quote"
  | _ => true

/-- The string content of a field, with missing or non-string values read as
the empty string. -/
def keyStrD (fields : List (String × Json)) (key : String) : String :=
  match fields.lookup key with
  | some (.str s) => s
  | _ => ""

/-- Total summary of the per-element processing: object elements yield a card
when their trimmed keyword is non-empty, bare strings always yield a card,
all other element shapes yield nothing. -/
def itemCardTotal : Json → Option Card
  | .obj fields =>
    let kw := pyStrip (keyStrD fields "keyword")
    if kw = "" then none else some ⟨kw, pyStrip (keyStrD fields "quote")⟩
  | .str s => some ⟨pyStrip s, ""⟩
  | _ => none

/-- On a safe field, `stripField` returns the trimmed field content. -/
theorem stripField_eq {fields : List (String × Json)} {key : String}
    (h : strOrMissing fields key = true) :
    stripField fields key = .ok (pyStrip (keyStrD fields key)) := by
  simp only [strOrMissing] at h
  simp only [stripField, keyStrD]
  cases hkl : fields.lookup key with
  | none => rfl
  | some v =>
    rw [hkl] at h
    cases v <;> first | rfl | exact Bool.noConfusion h

/-- On a safe element, `cardOfItem` agrees with the total summary. -/
theorem cardOfItem_ok {j : Json} (h : okItem j = true) :
    cardOfItem j = .ok (itemCardTotal j) := by
  cases j with
  | obj fields =>
    simp only [okItem, Bool.and_eq_true] at h
    simp only [cardOfItem, itemCardTotal, stripField_eq h.1, stripField_eq h.2]
  | _ => rfl

/-- On a list of safe elements, the element loop returns exactly the
order-preserving `filterMap` of the total summary. -/
theorem cardsOfList_ok (items : List Json) (h : ∀ j ∈ items, okItem j = true) :
    cardsOfList items = .ok (items.filterMap itemCardTotal) := by
  induction items with
  | nil => rfl
  | cons j js ih =>
    have hj := cardOfItem_ok (h j (by simp))
    have hrest := ih (fun x hx => h x (by simp [hx]))
    simp only [cardsOfList, hj, hrest, List.filterMap_cons]
    cases itemCardTotal j <;> rfl

/-- C10: when the parsed JSON value is a list whose object elements carry only
string-valued (or absent) `keyword`/`quote` fields, elements that are neither
objects nor strings contribute no card, and the emitted cards appear in source
order (the output is an order-preserving `filterMap` over the elements). -/
theorem c10_skip_non_obj_str (raw : String) (t : List Char) (items : List Json)
    (hu : unwrapFence (stripChars raw.data) = .ok t)
    (hp : json_loads (String.mk t) = some (.arr items))
    (h : ∀ j ∈ items, okItem j = true) :
    extract_keywords_norm raw = .ok (items.filterMap itemCardTotal) := by
  rw [extract_eq_structured hu hp]
  exact cardsOfList_ok items h

/-- C10 witness: a list mixing a number, booleans, null, a nested list, a bare
string and an object; only the string and the object contribute cards, in
order. -/
theorem c10_witness :
    extract_keywords_norm "[1, true, null, [2], \"x\", \x7b\"keyword\":\"y\",\"quote\":\"z\"\x7d]" =
      .ok [⟨"x", ""⟩, ⟨"y", "z"⟩] := by
  rw [c10_skip_non_obj_str
        "[1, true, null, [2], \"x\", \x7b\"keyword\":\"y\",\"quote\":\"z\"\x7d]"
        "[1, true, null, [2], \"x\", \x7b\"keyword\":\"y\",\"quote\":\"z\"\x7d]".data
        [.num 1, .bool true, .null, .arr [.num 2], .str "x",
         .obj [("keyword", .str "y"), ("quote", .str "z")]]
        (by rfl) (by rfl) (by decide)]
  rfl

/-- `beforeLastFence` finds nothing exactly when no three-backtick run
occurs. -/
theorem beforeLastFence_none_iff (l : List Char) :
    beforeLastFence l = none ↔ hasFence l = false := by
  induction l with
  | nil => simp [beforeLastFence, hasFence]
  | cons c rest ih =>
    simp only [beforeLastFence, hasFence]
    cases hb : beforeLastFence rest with
    | some pre =>
      have : hasFence rest = true := by
        rcases Bool.eq_false_or_eq_true (hasFence rest) with h | h
        · exact h
        · exact absurd (ih.mpr h) (by simp [hb])
      simp [this]
    | none =>
      have hrest : hasFence rest = false := ih.mp hb
      cases hs : startsWithFence (c :: rest) <;> simp [hs, hrest]

/-- When no later three-backtick run follows, `beforeLastFence` returns
exactly the prefix before an explicit three-backtick occurrence. -/
theorem beforeLastFence_append (pre post : List Char)
    (h : hasFence ('\x60' :: '\x60' :: post) = false) :
    beforeLastFence (pre ++ '\x60' :: '\x60' :: '\x60' :: post) = some pre := by
  induction pre with
  | nil =>
    have hnone : beforeLastFence ('\x60' :: '\x60' :: post) = none :=
      (beforeLastFence_none_iff _).mpr h
    rw [List.nil_append, beforeLastFence, hnone]
    simp [startsWithFence]
  | cons c pre' ih =>
    rw [List.cons_append, beforeLastFence, ih]

/-- C4 counterexample: the claim says that when the remainder after the
opening delimiter line contains no closing delimiter the input is not
unwrapped; in the code the opening line is removed regardless, so the interior
is parsed as JSON instead of the whole text falling through to the fallback. -/
theorem c4_counterexample :
    hasFence "[1]".data = false ∧
    unwrapFence (stripChars "```json\n[1]".data) = .ok "[1]".data ∧
    stripChars "```json\n[1]".data ≠ "[1]".data ∧
    extract_keywords_norm "```json\n[\"a\"]" = .ok [⟨"a", ""⟩] :=
  ⟨by rfl, by rfl, by decide, by rfl⟩

/-- C4 (amended): on trimmed input starting with a three-backtick delimiter
and containing a newline, the unwrap step removes the opening delimiter line;
when the remainder contains a closing delimiter everything from the last
closing delimiter onward is removed as well, and when it contains none the
remainder is kept whole (the opening line is still removed). -/
theorem c4_amended (raw : String) (rest : List Char)
    (hs : startsWithFence (stripChars raw.data) = true)
    (hn : splitOnceNL (stripChars raw.data) = some rest) :
    (hasFence rest = false → unwrapFence (stripChars raw.data) = .ok rest) ∧
    (∀ pre post,
        rest = pre ++ '\x60' :: '\x60' :: '\x60' :: post →
        hasFence ('\x60' :: '\x60' :: post) = false →
        unwrapFence (stripChars raw.data) = .ok pre) := by
  constructor
  · intro hf
    simp only [unwrapFence, hs, if_true, hn]
    rw [(beforeLastFence_none_iff rest).mpr hf]
    rfl
  · intro pre post hrest hf
    simp only [unwrapFence, hs, if_true, hn]
    rw [hrest, beforeLastFence_append pre post hf]
    rfl

/-- C4 amended witness: a fenced block with closing delimiter keeps only the
interior, and one without a closing delimiter keeps the whole remainder. -/
theorem c4_amended_witness :
    unwrapFence (stripChars "```json\n[\"x\"]\n```".data) = .ok "[\"x\"]\n".data ∧
    unwrapFence (stripChars "```json\n[1]".data) = .ok "[1]".data := by
  constructor
  · exact (c4_amended "```json\n[\"x\"]\n```" "[\"x\"]\n```".data (by rfl) (by rfl)).2
      "[\"x\"]\n".data [] (by decide) (by decide)
  · exact (c4_amended "```json\n[1]" "[1]".data (by rfl) (by rfl)).1 (by rfl)

/-! Lemmas for the serialization round trip (C9). -/

/-- Specializations of `List.dropWhile` at non-whitespace heads. -/
theorem dropWhile_jsonWs_cons (c : Char) (h : jsonWs c = false) (l : List Char) :
    (c :: l).dropWhile jsonWs = c :: l := by
  simp [List.dropWhile_cons, h]

/-- Drop-while facts for every punctuation head of the serialization. -/
theorem dropJW_quote (l : List Char) : ('"' :: l).dropWhile jsonWs = '"' :: l :=
  dropWhile_jsonWs_cons '"' rfl l

/-- Drop-while fact for an opening brace head. -/
theorem dropJW_lbrace (l : List Char) : ('\x7b' :: l).dropWhile jsonWs = '\x7b' :: l :=
  dropWhile_jsonWs_cons '\x7b' rfl l

/-- Drop-while fact for a closing brace head. -/
theorem dropJW_rbrace (l : List Char) : ('\x7d' :: l).dropWhile jsonWs = '\x7d' :: l :=
  dropWhile_jsonWs_cons '\x7d' rfl l

/-- Drop-while fact for an opening bracket head. -/
theorem dropJW_lbrack (l : List Char) : ('[' :: l).dropWhile jsonWs = '[' :: l :=
  dropWhile_jsonWs_cons '[' rfl l

/-- Drop-while fact for a closing bracket head. -/
theorem dropJW_rbrack (l : List Char) : (']' :: l).dropWhile jsonWs = ']' :: l :=
  dropWhile_jsonWs_cons ']' rfl l

/-- Drop-while fact for a colon head. -/
theorem dropJW_colon (l : List Char) : (':' :: l).dropWhile jsonWs = ':' :: l :=
  dropWhile_jsonWs_cons ':' rfl l

/-- Drop-while fact for a comma head. -/
theorem dropJW_comma (l : List Char) : (',' :: l).dropWhile jsonWs = ',' :: l :=
  dropWhile_jsonWs_cons ',' rfl l

/-- A serialized string literal, exposed with its head character. -/
theorem qstrChars_append (s : String) (z : List Char) :
    qstrChars s ++ z = '"' :: (escList s.data ++ '"' :: z) := by
  simp [qstrChars, List.append_assoc]

/-- The string-body parser undoes the serializer's escaping. -/
theorem parseStrAux_escape (cs : List Char) (rest : List Char) : ∀ acc,
    parseStrAux (escList cs ++ '"' :: rest) acc =
      some (String.mk (acc.reverse ++ cs), rest) := by
  induction cs with
  | nil => intro acc; simp only [escList, List.nil_append, List.append_nil]; rfl
  | cons c cs ih =>
    intro acc
    rcases eq_or_ne c '"' with h1 | h1
    · subst h1
      simp [escList, escChar, parseStrAux, parseStrEsc, ih, List.append_assoc]
    rcases eq_or_ne c '\\' with h2 | h2
    · subst h2
      simp [escList, escChar, parseStrAux, parseStrEsc, ih, List.append_assoc]
    rcases eq_or_ne c '\n' with h3 | h3
    · subst h3
      simp [escList, escChar, parseStrAux, parseStrEsc, ih, List.append_assoc]
    rcases eq_or_ne c '\r' with h4 | h4
    · subst h4
      simp [escList, escChar, parseStrAux, parseStrEsc, ih, List.append_assoc]
    rcases eq_or_ne c '\t' with h5 | h5
    · subst h5
      simp [escList, escChar, parseStrAux, parseStrEsc, ih, List.append_assoc]
    simp [escList, escChar, parseStrAux, ih, h1, h2, h3, h4, h5, List.append_assoc]

/-- The value parser undoes the serializer on one string literal. -/
theorem parseF_qstr (f : Nat) (s : String) (rest : List Char) :
    parseF (f + 1) .value (qstrChars s ++ rest) = some (.str s, rest) := by
  rw [parseF, qstrChars_append, dropJW_quote]
  simp [parseStrAux_escape]
/-- Branch selection: a brace after the value mode enters the object body. -/
theorem parseF_value_lbrace (f : Nat) (X : List Char) :
    parseF (f + 1) .value ('\x7b' :: X) = parseF f .objBody X := by
  rw [parseF, dropJW_lbrace]; rfl

/-- Branch selection: a bracket after the value mode enters the array body. -/
theorem parseF_value_lbrack (f : Nat) (X : List Char) :
    parseF (f + 1) .value ('[' :: X) = parseF f .arrBody X := by
  rw [parseF, dropJW_lbrack]; rfl

/-- Branch selection: a non-empty object body hands over to the members
mode. -/
theorem parseF_objBody_quote (f : Nat) (X : List Char) :
    parseF (f + 1) .objBody ('"' :: X) = parseF f (.members []) ('"' :: X) := by
  rw [parseF, dropJW_quote]; rfl

/-- Branch selection: a non-empty array body hands over to the elements
mode. -/
theorem parseF_arrBody_lbrace (f : Nat) (X : List Char) :
    parseF (f + 1) .arrBody ('\x7b' :: X) = parseF f (.elems []) ('\x7b' :: X) := by
  rw [parseF, dropJW_lbrace]; rfl

/-- One object member followed by the closing brace parses to the object. -/
theorem parseF_members_last (f : Nat) (acc : List (String × Json)) (key v : String)
    (rest : List Char) :
    parseF (f + 2) (.members acc) (qstrChars key ++ ':' :: (qstrChars v ++ '\x7d' :: rest)) =
      some (.obj (insertField acc key (.str v)), rest) := by
  rw [show f + 2 = f + 1 + 1 by omega, parseF, qstrChars_append, dropJW_quote]
  simp only [parseStrAux_escape, List.reverse_nil, List.nil_append, dropJW_colon,
    parseF_qstr f v ('\x7d' :: rest), dropJW_rbrace]

/-- One object member followed by a comma continues with the remaining
members. -/
theorem parseF_members_more (f : Nat) (acc : List (String × Json)) (key v : String)
    (z : List Char) :
    parseF (f + 2) (.members acc) (qstrChars key ++ ':' :: (qstrChars v ++ ',' :: z)) =
      parseF (f + 1) (.members (insertField acc key (.str v))) z := by
  rw [show f + 2 = f + 1 + 1 by omega, parseF, qstrChars_append, dropJW_quote]
  simp only [parseStrAux_escape, List.reverse_nil, List.nil_append, dropJW_colon,
    parseF_qstr f v (',' :: z), dropJW_comma]

/-- The value parser undoes the serializer on one card object. -/
theorem parseF_card (f : Nat) (c : Card) (rest : List Char) :
    parseF (f + 5) .value (cardChars c ++ rest) = some (cardJson c, rest) := by
  have hshape : cardChars c ++ rest =
      '\x7b' :: (qstrChars "keyword" ++ ':' :: (qstrChars c.keyword ++
        ',' :: (qstrChars "quote" ++ ':' :: (qstrChars c.quote ++ '\x7d' :: rest)))) := by
    simp [cardChars, List.cons_append, List.append_assoc]
  rw [hshape, show f + 5 = f + 4 + 1 by omega, parseF_value_lbrace]
  rw [qstrChars_append, show f + 4 = f + 3 + 1 by omega, parseF_objBody_quote,
      ← qstrChars_append]
  rw [show f + 3 = f + 1 + 2 by omega, parseF_members_more]
  rw [show f + 1 + 1 = f + 2 by omega, parseF_members_last]
  rfl

/-- The element loop parses a comma-separated run of serialized cards up to
the closing bracket. -/
theorem parseF_elems_go (cs : List Card) : ∀ (f : Nat) (c : Card) (acc : List Json)
    (rest : List Char),
    parseF (f + 6 * cs.length + 6) (.elems acc)
        (cardChars c ++ (elemsTail cs ++ ']' :: rest)) =
      some (.arr (acc.reverse ++ (c :: cs).map cardJson), rest) := by
  induction cs with
  | nil =>
    intro f c acc rest
    rw [show elemsTail ([] : List Card) ++ ']' :: rest = ']' :: rest from rfl]
    simp only [List.length_nil, Nat.mul_zero, Nat.add_zero]
    rw [show f + 6 = f + 5 + 1 by omega, parseF, parseF_card f c (']' :: rest)]
    simp [List.dropWhile_cons, show jsonWs ']' = false from rfl]
  | cons c2 cs ih =>
    intro f c acc rest
    have hshape : cardChars c ++ (elemsTail (c2 :: cs) ++ ']' :: rest) =
        cardChars c ++ ',' :: (cardChars c2 ++ (elemsTail cs ++ ']' :: rest)) := by
      simp [elemsTail, List.cons_append, List.append_assoc]
    rw [hshape, List.length_cons,
        show f + 6 * (cs.length + 1) + 6 = (f + 6 * cs.length + 11) + 1 by omega,
        parseF,
        show f + 6 * cs.length + 11 = (f + 6 * cs.length + 6) + 5 by omega,
        parseF_card]
    simp only [List.dropWhile_cons, show jsonWs ',' = false from rfl, Bool.false_eq_true,
      if_false]
    rw [show f + 6 * cs.length + 6 + 5 = (f + 5) + 6 * cs.length + 6 by omega, ih]
    simp [List.append_assoc]

/-- Every serialized card is at least six characters long. -/
theorem cardChars_length_ge (c : Card) : 6 ≤ (cardChars c).length := by
  have h9 : (qstrChars "keyword").length = 9 := rfl
  simp only [cardChars, List.length_cons, List.length_append, h9]
  omega

/-- The serialized tail is long enough for the fuel bound. -/
theorem elemsTail_length_ge (cs : List Card) : 6 * cs.length ≤ (elemsTail cs).length := by
  induction cs with
  | nil => simp [elemsTail]
  | cons c cs ih =>
    have := cardChars_length_ge c
    simp only [elemsTail, List.length_cons, List.length_append]
    omega

/-- Parsing the serialization of a card list recovers the corresponding JSON
array. -/
theorem json_loads_serialize (cards : List Card) :
    json_loads (serializeCards cards) = some (.arr (cards.map cardJson)) := by
  cases cards with
  | nil => rfl
  | cons c cs =>
    have hdata : (serializeCards (c :: cs)).data =
        '[' :: (cardChars c ++ (elemsTail cs ++ ']' :: [])) := by
      simp [serializeCards, elemsChars, List.cons_append, List.append_assoc]
    rw [json_loads, hdata]
    have hlen2 := elemsTail_length_ge cs
    obtain ⟨f0, hf⟩ : ∃ f0,
        4 * ('[' :: (cardChars c ++ (elemsTail cs ++ ']' :: []))).length + 16 =
          (f0 + 6 * cs.length + 6) + 1 + 1 := by
      refine ⟨4 * ('[' :: (cardChars c ++ (elemsTail cs ++ ']' :: []))).length + 8
        - 6 * cs.length, ?_⟩
      simp only [List.length_cons, List.length_append]
      omega
    rw [hf, parseF_value_lbrack]
    obtain ⟨t, ht⟩ : ∃ t, cardChars c ++ (elemsTail cs ++ ']' :: []) = '\x7b' :: t :=
      ⟨_, rfl⟩
    rw [ht, parseF_arrBody_lbrace, ← ht]
    rw [parseF_elems_go cs f0 c [] []]
    simp

/-- Trimming is the identity on a bracketed character list. -/
theorem stripChars_bracketed (m : List Char) :
    stripChars ('[' :: m ++ [']']) = '[' :: m ++ [']'] := by
  have h1 : pyWs '[' = false := rfl
  have h2 : pyWs ']' = false := rfl
  have e1 : ('[' :: m ++ [']']).dropWhile pyWs = '[' :: m ++ [']'] := by
    rw [show ('[' :: m ++ [']'] : List Char) = '[' :: (m ++ [']']) from rfl]
    simp [List.dropWhile_cons, h1]
  unfold stripChars
  rw [e1]
  have e2 : ('[' :: m ++ [']'] : List Char).reverse = ']' :: (m.reverse ++ ['[']) := by
    simp
  rw [e2, List.dropWhile_cons]
  simp [h2]

/-- A bracket-headed list is not a fenced block. -/
theorem startsWithFence_bracket (m : List Char) : startsWithFence ('[' :: m) = false := by
  cases m with
  | nil => rfl
  | cons c2 m2 =>
    cases m2 with
    | nil => rfl
    | cons c3 m3 => simp [startsWithFence]

/-- On already-trimmed cards with non-empty keywords, the element loop undoes
the serializer's JSON values. -/
theorem cardsOfList_map_cardJson (cards : List Card)
    (h : ∀ c ∈ cards,
      c.keyword ≠ "" ∧ pyStrip c.keyword = c.keyword ∧ pyStrip c.quote = c.quote) :
    cardsOfList (cards.map cardJson) = .ok cards := by
  induction cards with
  | nil => rfl
  | cons c cs ih =>
    obtain ⟨hne, hk, hq⟩ := h c (by simp)
    have hl1 : List.lookup "keyword"
        [("keyword", Json.str c.keyword), ("quote", Json.str c.quote)] =
        some (Json.str c.keyword) := rfl
    have hl2 : List.lookup "quote"
        [("keyword", Json.str c.keyword), ("quote", Json.str c.quote)] =
        some (Json.str c.quote) := rfl
    have hcard : cardOfItem (cardJson c) = .ok (some c) := by
      simp only [cardJson, cardOfItem, stripField, hl1, hl2, hk, hq, hne, if_false]
    have hrest := ih (fun x hx => h x (by simp [hx]))
    simp only [List.map_cons, cardsOfList, hcard, hrest]

/-- C9: normalizing the JSON serialization of an already-normalized card list
(all keywords non-empty and trimmed, all quotes trimmed) returns exactly the
same list. -/
theorem c9_idempotent (cards : List Card)
    (h : ∀ c ∈ cards,
      c.keyword ≠ "" ∧ pyStrip c.keyword = c.keyword ∧ pyStrip c.quote = c.quote) :
    extract_keywords_norm (serializeCards cards) = .ok cards := by
  have hdata : (serializeCards cards).data = '[' :: elemsChars cards ++ [']'] := rfl
  have hu : unwrapFence (stripChars (serializeCards cards).data) =
      .ok ((serializeCards cards).data) := by
    rw [hdata, stripChars_bracketed, unwrapFence]
    rw [show ('[' :: elemsChars cards ++ [']'] : List Char) =
        '[' :: (elemsChars cards ++ [']']) from rfl]
    rw [startsWithFence_bracket]
    rfl
  have hp : json_loads (String.mk ((serializeCards cards).data)) =
      some (.arr (cards.map cardJson)) := json_loads_serialize cards
  rw [extract_eq_structured hu hp]
  exact cardsOfList_map_cardJson cards h

/-- C9 witness: a concrete already-normalized two-card list survives the
serialize–normalize round trip unchanged. -/
theorem c9_witness :
    extract_keywords_norm (serializeCards [⟨"a", "b"⟩, ⟨"c", ""⟩]) =
      .ok [⟨"a", "b"⟩, ⟨"c", ""⟩] :=
  c9_idempotent [⟨"a", "b"⟩, ⟨"c", ""⟩] (by decide)
